/-
Verification of the ELB access-log line parser (`src/elb_log_files.rs`).

The Rust module is embedded shallowly:
* `parse_line`, `parse_property`, `process_files` and `file_list` are translated
  from the source.  Rust panics (out-of-bounds indexing `split_line[i]`,
  `Option::unwrap`, `Result::unwrap`) are modelled by `Option`: a result of
  `none` means the Rust code aborts.
* The field parsers come from the standard libraries the source calls into
  (`str::parse` instances and chrono); those crates are not part of the
  repository, so they are modelled from the specification's description of
  each wire format (see the doc comment on each parser).
* Rust `f32` values are represented by the exact decimal the token denotes,
  as an integer numerator over a power of ten (`F32Val`).  The specification
  describes float parsing as standard decimal-to-binary conversion to nearest
  binary32; that rounding preserves the sign and the zero-comparisons used by
  the theorems below, and every concrete float value appearing in this
  development is exactly representable in binary32.
-/
import Mathlib

namespace Elp

/-! ### Character and digit-string helpers -/

def digit_val (c : Char) : Nat := c.toNat - 48

def is_digit (c : Char) : Bool := decide (48 ≤ c.toNat ∧ c.toNat ≤ 57)

def digit_char (n : Nat) : Char := Char.ofNat (n + 48)

/-- Numeric value of a digit string, most significant digit first. -/
def digits_val (cs : List Char) : Nat := cs.foldl (fun a c => a * 10 + digit_val c) 0

/-- A non-empty all-digit character list, or `none`. -/
def parse_digits (cs : List Char) : Option Nat :=
  if cs ≠ [] ∧ cs.all is_digit then some (digits_val cs) else none

/-- Model of Rust `str::split` with a one-character pattern: split at every
occurrence of `c`; adjacent, leading and trailing separators produce empty
tokens, and the empty input yields one empty token. -/
def split_ch (c : Char) : List Char → List (List Char)
  | [] => [[]]
  | x :: xs =>
    match split_ch c xs with
    | [] => [[]]
    | g :: gs => if x = c then [] :: g :: gs else (x :: g) :: gs

/-- `line.split(" ")` from the source, as a list of strings. -/
def split_space (s : String) : List String := (split_ch ' ' s.data).map fun g => ⟨g⟩

/-! ### Model of `u16::from_str` / `u64::from_str`

Modelled from the spec ("integer fields reject any sign character, thousand
separators, or trailing non-digits" — except that Rust's unsigned `FromStr`,
which the source calls, does accept one optional leading `'+'`): an optional
leading `'+'`, then one or more ASCII digits; the value must fit the target
width, otherwise the parse errors (overflow). -/

def parse_unsigned (max_val : Nat) (s : String) : Option Nat :=
  let cs :=
    match s.data with
    | '+' :: r => r
    | r => r
  match parse_digits cs with
  | some n => if n ≤ max_val then some n else none
  | none => none

def parse_u16 (s : String) : Option Nat := parse_unsigned 65535 s

def parse_u64 (s : String) : Option Nat := parse_unsigned 18446744073709551615 s

/-! ### Model of `SocketAddrV4::from_str`

Modelled from the spec ("`a.b.c.d:port` with `a..d` in 0–255 and port in
0–65535"); the numeric components are plain digit runs (no sign). -/

structure SocketAddrV4 where
  a : Nat
  b : Nat
  c : Nat
  d : Nat
  port : Nat
deriving DecidableEq, Repr

/-- Digit-only bounded number (IPv4 octets and ports). -/
def parse_bounded (max_val : Nat) (cs : List Char) : Option Nat :=
  match parse_digits cs with
  | some n => if n ≤ max_val then some n else none
  | none => none

def parse_sock_addr (s : String) : Option SocketAddrV4 :=
  match split_ch ':' s.data with
  | [addr, port_str] =>
    match split_ch '.' addr with
    | [a, b, c, d] =>
      match parse_bounded 255 a, parse_bounded 255 b, parse_bounded 255 c,
          parse_bounded 255 d, parse_bounded 65535 port_str with
      | some av, some bv, some cv, some dv, some pv => some ⟨av, bv, cv, dv, pv⟩
      | _, _, _, _, _ => none
    | _ => none
  | _ => none

/-! ### Model of `f32::from_str`

Modelled from the spec ("parsed into 32-bit floats using standard
decimal-to-binary conversion"): an optional sign, decimal digits with an
optional fractional part (at least one digit in total), and an optional
decimal exponent.  The `inf`/`NaN` spellings of the Rust grammar are omitted:
no claim involves them.  The result is the exact decimal rational; see the
header comment for how it stands for the nearest binary32. -/

/-- The value of an `f32` field: the exact decimal `num / 10 ^ exp` denoted by
the token (see the header comment on binary32 rounding). -/
structure F32Val where
  num : Int
  exp : Nat
deriving DecidableEq, Repr

def F32Val.toRat (x : F32Val) : ℚ := (x.num : ℚ) / 10 ^ x.exp

def parse_exp_part (m : F32Val) (cs : List Char) : Option F32Val :=
  let (pos, cs2) : Bool × List Char :=
    match cs with
    | '+' :: r => (true, r)
    | '-' :: r => (false, r)
    | r => (true, r)
  if cs2 ≠ [] ∧ cs2.all is_digit then
    some (if pos then ⟨m.num * 10 ^ digits_val cs2, m.exp⟩
          else ⟨m.num, m.exp + digits_val cs2⟩)
  else none

def parse_f32 (s : String) : Option F32Val :=
  let (sgn, cs) : Int × List Char :=
    match s.data with
    | '+' :: r => (1, r)
    | '-' :: r => (-1, r)
    | r => (1, r)
  let (ip, r1) := cs.span is_digit
  match r1 with
  | '.' :: r =>
    let (fp, r2) := r.span is_digit
    if ip = [] ∧ fp = [] then none
    else
      let m : F32Val := ⟨sgn * (digits_val ip * 10 ^ fp.length + digits_val fp), fp.length⟩
      match r2 with
      | [] => some m
      | 'e' :: r3 => parse_exp_part m r3
      | 'E' :: r3 => parse_exp_part m r3
      | _ => none
  | _ =>
    if ip = [] then none
    else
      let m : F32Val := ⟨sgn * digits_val ip, 0⟩
      match r1 with
      | [] => some m
      | 'e' :: r3 => parse_exp_part m r3
      | 'E' :: r3 => parse_exp_part m r3
      | _ => none

/-! ### Model of chrono `DateTime<UTC>` for this log family

Modelled from the spec: the timestamp wire format is "ISO-8601 with explicit
`Z` zone and fractional-second precision up to microseconds, e.g.
`2015-08-15T23:43:05.302180Z`", and formatting a parsed instant back uses the
same pattern.  The instant is a UTC calendar date-time with microseconds. -/

structure DateTimeUTC where
  year : Nat
  month : Nat
  day : Nat
  hour : Nat
  minute : Nat
  second : Nat
  micro : Nat
deriving DecidableEq, Repr

def days_in_month (y m : Nat) : Nat :=
  if m = 2 then
    if (y % 4 = 0 ∧ y % 100 ≠ 0) ∨ y % 400 = 0 then 29 else 28
  else if m = 4 ∨ m = 6 ∨ m = 9 ∨ m = 11 then 30 else 31

/-- Read exactly `n` digits (most significant first) into the accumulator. -/
def read_fixed : Nat → Nat → List Char → Option (Nat × List Char)
  | 0, acc, cs => some (acc, cs)
  | _ + 1, _, [] => none
  | n + 1, acc, c :: cs =>
    if is_digit c then read_fixed n (acc * 10 + digit_val c) cs else none

/-- Consume one expected literal character. -/
def expect (ch : Char) : List Char → Option (List Char)
  | c :: cs => if c = ch then some cs else none
  | [] => none

/-- Validity of the calendar fields, as chrono checks them. -/
def valid_dt (y mo dy h mi sec : Nat) : Prop :=
  1 ≤ mo ∧ mo ≤ 12 ∧ 1 ≤ dy ∧ dy ≤ days_in_month y mo ∧ h ≤ 23 ∧ mi ≤ 59 ∧ sec ≤ 59

instance (y mo dy h mi sec : Nat) : Decidable (valid_dt y mo dy h mi sec) := by
  unfold valid_dt; infer_instance

def parse_timestamp (s : String) : Option DateTimeUTC :=
  match read_fixed 4 0 s.data with
  | none => none
  | some (y, ra) =>
  match expect '-' ra with
  | none => none
  | some r1 =>
  match read_fixed 2 0 r1 with
  | none => none
  | some (mo, rb) =>
  match expect '-' rb with
  | none => none
  | some r2 =>
  match read_fixed 2 0 r2 with
  | none => none
  | some (dy, rc) =>
  match expect 'T' rc with
  | none => none
  | some r3 =>
  match read_fixed 2 0 r3 with
  | none => none
  | some (h, rd) =>
  match expect ':' rd with
  | none => none
  | some r4 =>
  match read_fixed 2 0 r4 with
  | none => none
  | some (mi, re) =>
  match expect ':' re with
  | none => none
  | some r5 =>
  match read_fixed 2 0 r5 with
  | none => none
  | some (sec, rf) =>
  match expect '.' rf with
  | none => none
  | some r6 =>
  match read_fixed 6 0 r6 with
  | none => none
  | some (mic, rg) =>
  match expect 'Z' rg with
  | none => none
  | some r7 =>
  if r7 = [] ∧ valid_dt y mo dy h mi sec then
    some ⟨y, mo, dy, h, mi, sec, mic⟩
  else
    none

/-- Write `v` as exactly `n` zero-padded digits, most significant first. -/
def write_fixed : Nat → Nat → List Char
  | 0, _ => []
  | n + 1, v => digit_char (v / 10 ^ n) :: write_fixed n (v % 10 ^ n)

/-- Format an instant in the canonical pattern `YYYY-MM-DDTHH:MM:SS.ffffffZ`. -/
def format_timestamp (dt : DateTimeUTC) : String :=
  ⟨write_fixed 4 dt.year ++ '-' :: write_fixed 2 dt.month ++ '-' :: write_fixed 2 dt.day ++
    'T' :: write_fixed 2 dt.hour ++ ':' :: write_fixed 2 dt.minute ++
    ':' :: write_fixed 2 dt.second ++ '.' :: write_fixed 6 dt.micro ++ ['Z']⟩

/-! ### Model of `str::trim_matches` with a `char` pattern -/

/-- Remove all leading and all trailing occurrences of `p`. -/
def trim_matches (p : Char) (s : String) : String :=
  ⟨((s.data.dropWhile (· = p)).reverse.dropWhile (· = p)).reverse⟩

/-! ### The data model of `elb_log_files.rs` -/

/-- `ELBLogEntry` from the source.  `f32` fields carry the exact decimal
value (header comment); `u16`/`u64` fields are naturals whose bounds are
enforced by their parsers. -/
structure ELBLogEntry where
  timestamp : DateTimeUTC
  elb_name : String
  client_address : SocketAddrV4
  backend_address : SocketAddrV4
  request_processing_time : F32Val
  backend_processing_time : F32Val
  response_processing_time : F32Val
  elb_status_code : Nat
  backend_status_code : Nat
  received_bytes : Nat
  sent_bytes : Nat
  request_method : String
  request_url : String
  request_http_version : String
deriving DecidableEq, Repr

/-- `ParsingError` from the source.  The `inner_description : Box<Error>`
payload is an opaque error object whose content no claim inspects; only the
`property` tag is modelled. -/
structure ParsingError where
  property : String
deriving DecidableEq, Repr

/-- `ParsingErrors` from the source (the line-parse failure). -/
structure ParsingErrors where
  record : String
  errors : List ParsingError
deriving DecidableEq, Repr

def TIMESTAMP : String := "timestamp"
def CLIENT_ADDRESS : String := "client address"
def BACKEND_ADDRESS : String := "backend address"
def REQUEST_PROCESSING_TIME : String := "request processing time"
def BACKEND_PROCESSING_TIME : String := "backend processing time"
def RESPONSE_PROCESSING_TIME : String := "response processing time"
def ELB_STATUS_CODE : String := "ELB status code"
def BE_STATUS_CODE : String := "backend status code"
def RECEIVED_BYTES : String := "received bytes"
def SENT_BYTES : String := "sent bytes"

/-- `parse_property` from the source: try one field, push an error on failure.
The Rust `&mut Vec` of errors is passed and returned explicitly. -/
def parse_property {α : Type} (from_str : String → Option α) (raw_prop : String)
    (prop_name : String) (errors : List ParsingError) : Option α × List ParsingError :=
  match from_str raw_prop with
  | some parsed => (some parsed, errors)
  | none => (none, errors ++ [⟨prop_name⟩])

/-- `parse_line` from the source.  `none` models a Rust panic (out-of-bounds
`split_line[i]` or a failing `unwrap`); `some` is the function's return value:
`Except.ok` for `Ok(Box<ELBLogEntry>)`, `Except.error` for
`Err(Box<ParsingErrors>)` (the boxes carry no semantics). -/
def parse_line (line : String) : Option (Except ParsingErrors ELBLogEntry) :=
  let split_line := split_space line
  match split_line.get? 0 with
  | none => none
  | some t0 =>
  let p0 := parse_property parse_timestamp t0 TIMESTAMP []
  match split_line.get? 2 with
  | none => none
  | some t2 =>
  let p1 := parse_property parse_sock_addr t2 CLIENT_ADDRESS p0.2
  match split_line.get? 3 with
  | none => none
  | some t3 =>
  let p2 := parse_property parse_sock_addr t3 BACKEND_ADDRESS p1.2
  match split_line.get? 4 with
  | none => none
  | some t4 =>
  let p3 := parse_property parse_f32 t4 REQUEST_PROCESSING_TIME p2.2
  match split_line.get? 5 with
  | none => none
  | some t5 =>
  let p4 := parse_property parse_f32 t5 BACKEND_PROCESSING_TIME p3.2
  match split_line.get? 6 with
  | none => none
  | some t6 =>
  let p5 := parse_property parse_f32 t6 RESPONSE_PROCESSING_TIME p4.2
  match split_line.get? 7 with
  | none => none
  | some t7 =>
  let p6 := parse_property parse_u16 t7 ELB_STATUS_CODE p5.2
  match split_line.get? 8 with
  | none => none
  | some t8 =>
  let p7 := parse_property parse_u16 t8 BE_STATUS_CODE p6.2
  match split_line.get? 9 with
  | none => none
  | some t9 =>
  let p8 := parse_property parse_u64 t9 RECEIVED_BYTES p7.2
  match split_line.get? 10 with
  | none => none
  | some t10 =>
  let p9 := parse_property parse_u64 t10 SENT_BYTES p8.2
  if p9.2.isEmpty then
    match p0.1, split_line.get? 1, p1.1, p2.1, p3.1, p4.1, p5.1, p6.1, p7.1,
        p8.1, p9.1, split_line.get? 11, split_line.get? 12, split_line.get? 13 with
    | some ts, some t1, some clnt_addr, some be_addr, some req_proc_time,
        some be_proc_time, some res_proc_time, some elb_sc, some be_sc,
        some bytes_received, some bytes_sent, some t11, some t12, some t13 =>
      some (Except.ok
        { timestamp := ts
          elb_name := t1
          client_address := clnt_addr
          backend_address := be_addr
          request_processing_time := req_proc_time
          backend_processing_time := be_proc_time
          response_processing_time := res_proc_time
          elb_status_code := elb_sc
          backend_status_code := be_sc
          received_bytes := bytes_received
          sent_bytes := bytes_sent
          request_method := trim_matches '\"' t11
          request_url := t12
          request_http_version := trim_matches '\"' t13 })
    | _, _, _, _, _, _, _, _, _, _, _, _, _, _ => none
  else
    some (Except.error { record := line, errors := p9.2 })

/-! ### The driver `process_files`

Files are modelled as the outcome of `File::open` followed by the file's line
stream: `none` is an open error (printed and skipped by the source), `some
lines` the successfully read lines.  The `debug` flag only gates `debug!`
output and does not affect the result.  `none` overall models a panic inside
the per-line `map` (a `parse_line` abort). -/

/-- The per-file record vector: `lines.map(|x| parse_line(&x.unwrap())).collect()`.
`none` models a panic inside the closure (a `parse_line` abort). -/
def parse_lines : List String → Option (List (Except ParsingErrors ELBLogEntry))
  | [] => some []
  | l :: ls =>
    match parse_line l, parse_lines ls with
    | some r, some rs => some (r :: rs)
    | _, _ => none

def process_files_go (record_count : Nat) :
    List (Option (List String)) → Option Nat
  | [] => some record_count
  | none :: rest => process_files_go record_count rest
  | some lines :: rest =>
    match parse_lines lines with
    | none => none
    | some recs => process_files_go (record_count + recs.length) rest

def process_files (debug : Bool) (files : List (Option (List String))) : Option Nat :=
  process_files_go 0 files

/-! ### `file_list`

`walkdir` is external; the traversal is modelled as the sequence of outcomes
its iterator yields (entries are their paths, errors are opaque strings).
The `&mut Vec<DirEntry>` is passed and returned explicitly. -/

def file_list : List (Except String String) → List String → Except String Nat × List String
  | [], filenames => (Except.ok filenames.length, filenames)
  | Except.error e :: _, filenames => (Except.error e, filenames)
  | Except.ok entry :: rest, filenames => file_list rest (filenames ++ [entry])

/-! ### Specification-side derived notions -/

/-- The error contribution of one typed-field parse: nothing on success, one
tagged error on failure. -/
def err_bit {α : Type} (o : Option α) (tag : String) : List ParsingError :=
  match o with
  | some _ => []
  | none => [⟨tag⟩]

/-- The error list a line's ten typed fields should produce, in positional
order (positions 0 and 2–10 of the split line). -/
def expected_errors (t0 t2 t3 t4 t5 t6 t7 t8 t9 t10 : String) : List ParsingError :=
  err_bit (parse_timestamp t0) TIMESTAMP ++
  err_bit (parse_sock_addr t2) CLIENT_ADDRESS ++
  err_bit (parse_sock_addr t3) BACKEND_ADDRESS ++
  err_bit (parse_f32 t4) REQUEST_PROCESSING_TIME ++
  err_bit (parse_f32 t5) BACKEND_PROCESSING_TIME ++
  err_bit (parse_f32 t6) RESPONSE_PROCESSING_TIME ++
  err_bit (parse_u16 t7) ELB_STATUS_CODE ++
  err_bit (parse_u16 t8) BE_STATUS_CODE ++
  err_bit (parse_u64 t9) RECEIVED_BYTES ++
  err_bit (parse_u64 t10) SENT_BYTES

/-- The number of malformed typed fields among positions 0 and 2–10. -/
def num_malformed (t0 t2 t3 t4 t5 t6 t7 t8 t9 t10 : String) : Nat :=
  (if (parse_timestamp t0).isSome then 0 else 1) +
  (if (parse_sock_addr t2).isSome then 0 else 1) +
  (if (parse_sock_addr t3).isSome then 0 else 1) +
  (if (parse_f32 t4).isSome then 0 else 1) +
  (if (parse_f32 t5).isSome then 0 else 1) +
  (if (parse_f32 t6).isSome then 0 else 1) +
  (if (parse_u16 t7).isSome then 0 else 1) +
  (if (parse_u16 t8).isSome then 0 else 1) +
  (if (parse_u64 t9).isSome then 0 else 1) +
  (if (parse_u64 t10).isSome then 0 else 1)

/-- The fixed tag set, in positional field order (the spec's table; `elb name`
is reserved but can never be produced, so it is absent here). -/
def typed_field_tags : List String :=
  [TIMESTAMP, CLIENT_ADDRESS, BACKEND_ADDRESS, REQUEST_PROCESSING_TIME,
   BACKEND_PROCESSING_TIME, RESPONSE_PROCESSING_TIME, ELB_STATUS_CODE,
   BE_STATUS_CODE, RECEIVED_BYTES, SENT_BYTES]

/-- The canonical sample line of the spec and of the source's tests. -/
def canonical_line : String :=
  "2015-08-15T23:43:05.302180Z elb-name 172.16.1.6:54814 172.16.1.5:9000 0.000039 0.145507 0.00003 200 200 0 7582 \"GET http://some.domain.com:80/path0/path1?param0=p0&param1=p1 HTTP/1.1\""

/-- The record the canonical line parses to. -/
def canonical_record : ELBLogEntry :=
  { timestamp := ⟨2015, 8, 15, 23, 43, 5, 302180⟩
    elb_name := "elb-name"
    client_address := ⟨172, 16, 1, 6, 54814⟩
    backend_address := ⟨172, 16, 1, 5, 9000⟩
    request_processing_time := ⟨39, 6⟩
    backend_processing_time := ⟨145507, 6⟩
    response_processing_time := ⟨3, 5⟩
    elb_status_code := 200
    backend_status_code := 200
    received_bytes := 0
    sent_bytes := 7582
    request_method := "GET"
    request_url := "http://some.domain.com:80/path0/path1?param0=p0&param1=p1"
    request_http_version := "HTTP/1.1" }

/-- The canonical line with `200 200` replaced by `two-hundred 200`. -/
def two_hundred_line : String :=
  "2015-08-15T23:43:05.302180Z elb-name 172.16.1.6:54814 172.16.1.5:9000 0.000039 0.145507 0.00003 two-hundred 200 0 7582 \"GET http://some.domain.com:80/path0/path1?param0=p0&param1=p1 HTTP/1.1\""

/-- A line of 14 tokens on which every typed field is malformed. -/
def all_x_line : String := "x x x x x x x x x x x x x x"

/-- The errors `all_x_line` produces: every typed-field tag, in positional
order. -/
def all_x_errors : List ParsingError :=
  [⟨TIMESTAMP⟩, ⟨CLIENT_ADDRESS⟩, ⟨BACKEND_ADDRESS⟩, ⟨REQUEST_PROCESSING_TIME⟩,
   ⟨BACKEND_PROCESSING_TIME⟩, ⟨RESPONSE_PROCESSING_TIME⟩, ⟨ELB_STATUS_CODE⟩,
   ⟨BE_STATUS_CODE⟩, ⟨RECEIVED_BYTES⟩, ⟨SENT_BYTES⟩]

/-- The canonical line with the method token `"GET` replaced by `""GET`
(two leading double quotes). -/
def double_quoted_line : String :=
  "2015-08-15T23:43:05.302180Z elb-name 172.16.1.6:54814 172.16.1.5:9000 0.000039 0.145507 0.00003 200 200 0 7582 \"\"GET http://some.domain.com:80/path0/path1?param0=p0&param1=p1 HTTP/1.1\""

/-- The canonical line with `request_processing_time` replaced by `-0.5`. -/
def neg_time_line : String :=
  "2015-08-15T23:43:05.302180Z elb-name 172.16.1.6:54814 172.16.1.5:9000 -0.5 0.145507 0.00003 200 200 0 7582 \"GET http://some.domain.com:80/path0/path1?param0=p0&param1=p1 HTTP/1.1\""

/-- The record `neg_time_line` parses to: a negative processing time. -/
def neg_time_record : ELBLogEntry :=
  { canonical_record with request_processing_time := ⟨-5, 1⟩ }

/-- The canonical line with `sent_bytes` written as `+7582`. -/
def plus_line : String :=
  "2015-08-15T23:43:05.302180Z elb-name 172.16.1.6:54814 172.16.1.5:9000 0.000039 0.145507 0.00003 200 200 0 +7582 \"GET http://some.domain.com:80/path0/path1?param0=p0&param1=p1 HTTP/1.1\""

/-- The canonical line with `sent_bytes = 18446744073709551615` (`u64::MAX`). -/
def max_bytes_line : String :=
  "2015-08-15T23:43:05.302180Z elb-name 172.16.1.6:54814 172.16.1.5:9000 0.000039 0.145507 0.00003 200 200 0 18446744073709551615 \"GET http://some.domain.com:80/path0/path1?param0=p0&param1=p1 HTTP/1.1\""

/-- The canonical line with `sent_bytes = 18446744073709551616` (one past
`u64::MAX`). -/
def over_bytes_line : String :=
  "2015-08-15T23:43:05.302180Z elb-name 172.16.1.6:54814 172.16.1.5:9000 0.000039 0.145507 0.00003 200 200 0 18446744073709551616 \"GET http://some.domain.com:80/path0/path1?param0=p0&param1=p1 HTTP/1.1\""

/-- The canonical line with `elb_status_code = 65536` (one past `u16::MAX`). -/
def over_status_line : String :=
  "2015-08-15T23:43:05.302180Z elb-name 172.16.1.6:54814 172.16.1.5:9000 0.000039 0.145507 0.00003 65536 200 0 7582 \"GET http://some.domain.com:80/path0/path1?param0=p0&param1=p1 HTTP/1.1\""

/-- A valid 13-token prefix of the canonical line (the trailing
`HTTP/1.1"` token removed): every typed field parses, yet the token vector is
too short for positions 13. -/
def thirteen_token_line : String :=
  "2015-08-15T23:43:05.302180Z elb-name 172.16.1.6:54814 172.16.1.5:9000 0.000039 0.145507 0.00003 200 200 0 7582 \"GET http://some.domain.com:80/path0/path1?param0=p0&param1=p1"

end Elp

deriving instance DecidableEq for Except

set_option maxRecDepth 1000000

namespace Elp

/-! ### Basic lemmas -/

lemma parse_property_eq {α : Type} (p : String → Option α) (t tag : String)
    (errs : List ParsingError) :
    parse_property p t tag errs = (p t, errs ++ err_bit (p t) tag) := by
  unfold parse_property err_bit
  cases p t <;> simp

lemma err_bit_length {α : Type} (o : Option α) (tag : String) :
    (err_bit o tag).length = if o.isSome then 0 else 1 := by
  cases o <;> rfl

lemma bit_cons_sublist {α : Type} (o : Option α) (tag : String) (xs l : List String)
    (h : List.Sublist xs l) :
    List.Sublist ((err_bit o tag).map ParsingError.property ++ xs) (tag :: l) := by
  cases o
  · simpa [err_bit] using h.cons₂ tag
  · simpa [err_bit] using h.cons tag

lemma bit_last_sublist {α : Type} (o : Option α) (tag : String) :
    List.Sublist ((err_bit o tag).map ParsingError.property) [tag] := by
  cases o <;> simp [err_bit]

lemma err_bit_some {α : Type} (v : α) (tag : String) : err_bit (some v) tag = [] := rfl

lemma err_bit_eq_nil {α : Type} {o : Option α} {tag : String} (h : err_bit o tag = []) :
    ∃ v, o = some v := by
  cases o with
  | none => simp [err_bit] at h
  | some v => exact ⟨v, rfl⟩

/-! ### Characterization of `parse_line` -/

/-- On a line of at least 11 tokens with at least one malformed typed field,
`parse_line` returns the aggregated failure. -/
lemma parse_line_failure_char (line t0 t1 t2 t3 t4 t5 t6 t7 t8 t9 t10 : String)
    (rest : List String)
    (hsplit : split_space line =
      t0 :: t1 :: t2 :: t3 :: t4 :: t5 :: t6 :: t7 :: t8 :: t9 :: t10 :: rest)
    (hne : expected_errors t0 t2 t3 t4 t5 t6 t7 t8 t9 t10 ≠ []) :
    parse_line line =
      some (Except.error ⟨line, expected_errors t0 t2 t3 t4 t5 t6 t7 t8 t9 t10⟩) := by
  have h0 : (split_space line).get? 0 = some t0 := by rw [hsplit]; rfl
  have h1 : (split_space line).get? 2 = some t2 := by rw [hsplit]; rfl
  have h2 : (split_space line).get? 3 = some t3 := by rw [hsplit]; rfl
  have h3 : (split_space line).get? 4 = some t4 := by rw [hsplit]; rfl
  have h4 : (split_space line).get? 5 = some t5 := by rw [hsplit]; rfl
  have h5 : (split_space line).get? 6 = some t6 := by rw [hsplit]; rfl
  have h6 : (split_space line).get? 7 = some t7 := by rw [hsplit]; rfl
  have h7 : (split_space line).get? 8 = some t8 := by rw [hsplit]; rfl
  have h8 : (split_space line).get? 9 = some t9 := by rw [hsplit]; rfl
  have h9 : (split_space line).get? 10 = some t10 := by rw [hsplit]; rfl
  simp only [parse_line, h0, h1, h2, h3, h4, h5, h6, h7, h8, h9, parse_property_eq]
  have hfold : [] ++ err_bit (parse_timestamp t0) TIMESTAMP ++
      err_bit (parse_sock_addr t2) CLIENT_ADDRESS ++
      err_bit (parse_sock_addr t3) BACKEND_ADDRESS ++
      err_bit (parse_f32 t4) REQUEST_PROCESSING_TIME ++
      err_bit (parse_f32 t5) BACKEND_PROCESSING_TIME ++
      err_bit (parse_f32 t6) RESPONSE_PROCESSING_TIME ++
      err_bit (parse_u16 t7) ELB_STATUS_CODE ++
      err_bit (parse_u16 t8) BE_STATUS_CODE ++
      err_bit (parse_u64 t9) RECEIVED_BYTES ++
      err_bit (parse_u64 t10) SENT_BYTES =
      expected_errors t0 t2 t3 t4 t5 t6 t7 t8 t9 t10 := by
    simp [expected_errors, List.append_assoc]
  rw [hfold]
  have hcond : ¬((expected_errors t0 t2 t3 t4 t5 t6 t7 t8 t9 t10).isEmpty = true) := by
    cases hq : expected_errors t0 t2 t3 t4 t5 t6 t7 t8 t9 t10 with
    | nil => exact absurd hq hne
    | cons a l => simp
  rw [if_neg hcond]

/-- On a line of at least 14 tokens whose ten typed fields all parse,
`parse_line` returns the fully populated record. -/
lemma parse_line_success_char
    (line t0 t1 t2 t3 t4 t5 t6 t7 t8 t9 t10 t11 t12 t13 : String)
    (rest : List String)
    (hsplit : split_space line = t0 :: t1 :: t2 :: t3 :: t4 :: t5 :: t6 :: t7 ::
      t8 :: t9 :: t10 :: t11 :: t12 :: t13 :: rest)
    (ts : DateTimeUTC) (ca ba : SocketAddrV4) (v4 v5 v6 : F32Val) (n7 n8 n9 n10 : Nat)
    (hp0 : parse_timestamp t0 = some ts)
    (hp1 : parse_sock_addr t2 = some ca)
    (hp2 : parse_sock_addr t3 = some ba)
    (hp3 : parse_f32 t4 = some v4)
    (hp4 : parse_f32 t5 = some v5)
    (hp5 : parse_f32 t6 = some v6)
    (hp6 : parse_u16 t7 = some n7)
    (hp7 : parse_u16 t8 = some n8)
    (hp8 : parse_u64 t9 = some n9)
    (hp9 : parse_u64 t10 = some n10) :
    parse_line line = some (Except.ok
      ⟨ts, t1, ca, ba, v4, v5, v6, n7, n8, n9, n10,
        trim_matches '\"' t11, t12, trim_matches '\"' t13⟩) := by
  have h0 : (split_space line).get? 0 = some t0 := by rw [hsplit]; rfl
  have h1 : (split_space line).get? 1 = some t1 := by rw [hsplit]; rfl
  have h2 : (split_space line).get? 2 = some t2 := by rw [hsplit]; rfl
  have h3 : (split_space line).get? 3 = some t3 := by rw [hsplit]; rfl
  have h4 : (split_space line).get? 4 = some t4 := by rw [hsplit]; rfl
  have h5 : (split_space line).get? 5 = some t5 := by rw [hsplit]; rfl
  have h6 : (split_space line).get? 6 = some t6 := by rw [hsplit]; rfl
  have h7 : (split_space line).get? 7 = some t7 := by rw [hsplit]; rfl
  have h8 : (split_space line).get? 8 = some t8 := by rw [hsplit]; rfl
  have h9 : (split_space line).get? 9 = some t9 := by rw [hsplit]; rfl
  have h10 : (split_space line).get? 10 = some t10 := by rw [hsplit]; rfl
  have h11 : (split_space line).get? 11 = some t11 := by rw [hsplit]; rfl
  have h12 : (split_space line).get? 12 = some t12 := by rw [hsplit]; rfl
  have h13 : (split_space line).get? 13 = some t13 := by rw [hsplit]; rfl
  simp only [parse_line, h0, h1, h2, h3, h4, h5, h6, h7, h8, h9, h10, h11, h12, h13,
    parse_property_eq, hp0, hp1, hp2, hp3, hp4, hp5, hp6, hp7, hp8, hp9, err_bit_some,
    List.append_nil, List.nil_append, List.isEmpty_nil, if_true]

/-- On a line of 11 to 13 tokens whose ten typed fields all parse, the source
indexes past the end of the token vector: the call aborts. -/
lemma parse_line_short_panic (line t0 t1 t2 t3 t4 t5 t6 t7 t8 t9 t10 : String)
    (rest : List String)
    (hsplit : split_space line =
      t0 :: t1 :: t2 :: t3 :: t4 :: t5 :: t6 :: t7 :: t8 :: t9 :: t10 :: rest)
    (hshort : rest.length ≤ 2)
    (ts : DateTimeUTC) (ca ba : SocketAddrV4) (v4 v5 v6 : F32Val) (n7 n8 n9 n10 : Nat)
    (hp0 : parse_timestamp t0 = some ts)
    (hp1 : parse_sock_addr t2 = some ca)
    (hp2 : parse_sock_addr t3 = some ba)
    (hp3 : parse_f32 t4 = some v4)
    (hp4 : parse_f32 t5 = some v5)
    (hp5 : parse_f32 t6 = some v6)
    (hp6 : parse_u16 t7 = some n7)
    (hp7 : parse_u16 t8 = some n8)
    (hp8 : parse_u64 t9 = some n9)
    (hp9 : parse_u64 t10 = some n10) :
    parse_line line = none := by
  have h0 : (split_space line).get? 0 = some t0 := by rw [hsplit]; rfl
  have h1 : (split_space line).get? 1 = some t1 := by rw [hsplit]; rfl
  have h2 : (split_space line).get? 2 = some t2 := by rw [hsplit]; rfl
  have h3 : (split_space line).get? 3 = some t3 := by rw [hsplit]; rfl
  have h4 : (split_space line).get? 4 = some t4 := by rw [hsplit]; rfl
  have h5 : (split_space line).get? 5 = some t5 := by rw [hsplit]; rfl
  have h6 : (split_space line).get? 6 = some t6 := by rw [hsplit]; rfl
  have h7 : (split_space line).get? 7 = some t7 := by rw [hsplit]; rfl
  have h8 : (split_space line).get? 8 = some t8 := by rw [hsplit]; rfl
  have h9 : (split_space line).get? 9 = some t9 := by rw [hsplit]; rfl
  have h10 : (split_space line).get? 10 = some t10 := by rw [hsplit]; rfl
  rcases rest with _ | ⟨u11, rest⟩
  · have h11 : (split_space line).get? 11 = none := by rw [hsplit]; rfl
    simp only [parse_line, h0, h1, h2, h3, h4, h5, h6, h7, h8, h9, h10, h11,
      parse_property_eq, hp0, hp1, hp2, hp3, hp4, hp5, hp6, hp7, hp8, hp9, err_bit_some,
      List.append_nil, List.nil_append, List.isEmpty_nil, if_true]
  · rcases rest with _ | ⟨u12, rest⟩
    · have h11 : (split_space line).get? 11 = some u11 := by rw [hsplit]; rfl
      have h12 : (split_space line).get? 12 = none := by rw [hsplit]; rfl
      simp only [parse_line, h0, h1, h2, h3, h4, h5, h6, h7, h8, h9, h10, h11, h12,
        parse_property_eq, hp0, hp1, hp2, hp3, hp4, hp5, hp6, hp7, hp8, hp9, err_bit_some,
        List.append_nil, List.nil_append, List.isEmpty_nil, if_true]
    · rcases rest with _ | ⟨u13, rest⟩
      · have h11 : (split_space line).get? 11 = some u11 := by rw [hsplit]; rfl
        have h12 : (split_space line).get? 12 = some u12 := by rw [hsplit]; rfl
        have h13 : (split_space line).get? 13 = none := by rw [hsplit]; rfl
        simp only [parse_line, h0, h1, h2, h3, h4, h5, h6, h7, h8, h9, h10, h11, h12, h13,
          parse_property_eq, hp0, hp1, hp2, hp3, hp4, hp5, hp6, hp7, hp8, hp9, err_bit_some,
          List.append_nil, List.nil_append, List.isEmpty_nil, if_true]
      · simp at hshort

/-- Inversion: a returned value on a line whose typed fields all parse is the
fully populated record, and the line must have had at least 14 tokens. -/
lemma parse_line_success_inv (line t0 t1 t2 t3 t4 t5 t6 t7 t8 t9 t10 : String)
    (rest : List String)
    (hsplit : split_space line =
      t0 :: t1 :: t2 :: t3 :: t4 :: t5 :: t6 :: t7 :: t8 :: t9 :: t10 :: rest)
    (hexp : expected_errors t0 t2 t3 t4 t5 t6 t7 t8 t9 t10 = [])
    (r : Except ParsingErrors ELBLogEntry)
    (hr : parse_line line = some r) :
    ∃ t11 t12 t13 rest2 ts ca ba v4 v5 v6 n7 n8 n9 n10,
      rest = t11 :: t12 :: t13 :: rest2 ∧
      parse_timestamp t0 = some ts ∧
      parse_sock_addr t2 = some ca ∧
      parse_sock_addr t3 = some ba ∧
      parse_f32 t4 = some v4 ∧
      parse_f32 t5 = some v5 ∧
      parse_f32 t6 = some v6 ∧
      parse_u16 t7 = some n7 ∧
      parse_u16 t8 = some n8 ∧
      parse_u64 t9 = some n9 ∧
      parse_u64 t10 = some n10 ∧
      r = Except.ok ⟨ts, t1, ca, ba, v4, v5, v6, n7, n8, n9, n10,
        trim_matches '\"' t11, t12, trim_matches '\"' t13⟩ := by
  have hbits := hexp
  unfold expected_errors at hbits
  simp only [List.append_eq_nil] at hbits
  obtain ⟨⟨⟨⟨⟨⟨⟨⟨⟨b0, b1⟩, b2⟩, b3⟩, b4⟩, b5⟩, b6⟩, b7⟩, b8⟩, b9⟩ := hbits
  obtain ⟨ts, hp0⟩ := err_bit_eq_nil b0
  obtain ⟨ca, hp1⟩ := err_bit_eq_nil b1
  obtain ⟨ba, hp2⟩ := err_bit_eq_nil b2
  obtain ⟨v4, hp3⟩ := err_bit_eq_nil b3
  obtain ⟨v5, hp4⟩ := err_bit_eq_nil b4
  obtain ⟨v6, hp5⟩ := err_bit_eq_nil b5
  obtain ⟨n7, hp6⟩ := err_bit_eq_nil b6
  obtain ⟨n8, hp7⟩ := err_bit_eq_nil b7
  obtain ⟨n9, hp8⟩ := err_bit_eq_nil b8
  obtain ⟨n10, hp9⟩ := err_bit_eq_nil b9
  rcases rest with _ | ⟨t11, rest⟩
  · rw [parse_line_short_panic line t0 t1 t2 t3 t4 t5 t6 t7 t8 t9 t10 []
      hsplit (by simp) ts ca ba v4 v5 v6 n7 n8 n9 n10
      hp0 hp1 hp2 hp3 hp4 hp5 hp6 hp7 hp8 hp9] at hr
    exact absurd hr (by simp)
  · rcases rest with _ | ⟨t12, rest⟩
    · rw [parse_line_short_panic line t0 t1 t2 t3 t4 t5 t6 t7 t8 t9 t10 [t11]
        hsplit (by simp) ts ca ba v4 v5 v6 n7 n8 n9 n10
        hp0 hp1 hp2 hp3 hp4 hp5 hp6 hp7 hp8 hp9] at hr
      exact absurd hr (by simp)
    · rcases rest with _ | ⟨t13, rest⟩
      · rw [parse_line_short_panic line t0 t1 t2 t3 t4 t5 t6 t7 t8 t9 t10 [t11, t12]
          hsplit (by simp) ts ca ba v4 v5 v6 n7 n8 n9 n10
          hp0 hp1 hp2 hp3 hp4 hp5 hp6 hp7 hp8 hp9] at hr
        exact absurd hr (by simp)
      · rw [parse_line_success_char line t0 t1 t2 t3 t4 t5 t6 t7 t8 t9 t10 t11 t12 t13
          rest hsplit ts ca ba v4 v5 v6 n7 n8 n9 n10
          hp0 hp1 hp2 hp3 hp4 hp5 hp6 hp7 hp8 hp9] at hr
        refine ⟨t11, t12, t13, rest, ts, ca, ba, v4, v5, v6, n7, n8, n9, n10, rfl,
          hp0, hp1, hp2, hp3, hp4, hp5, hp6, hp7, hp8, hp9, ?_⟩
        exact (Option.some_inj.mp hr).symm

/-- Inversion for a successful return on a line with all 14 positions known:
every field of the returned record is determined by its token. -/
lemma parse_line_ok_inv (line t0 t1 t2 t3 t4 t5 t6 t7 t8 t9 t10 t11 t12 t13 : String)
    (rest : List String)
    (hsplit : split_space line = t0 :: t1 :: t2 :: t3 :: t4 :: t5 :: t6 :: t7 ::
      t8 :: t9 :: t10 :: t11 :: t12 :: t13 :: rest)
    (r : ELBLogEntry) (hr : parse_line line = some (Except.ok r)) :
    parse_timestamp t0 = some r.timestamp ∧
    r.elb_name = t1 ∧
    parse_sock_addr t2 = some r.client_address ∧
    parse_sock_addr t3 = some r.backend_address ∧
    parse_f32 t4 = some r.request_processing_time ∧
    parse_f32 t5 = some r.backend_processing_time ∧
    parse_f32 t6 = some r.response_processing_time ∧
    parse_u16 t7 = some r.elb_status_code ∧
    parse_u16 t8 = some r.backend_status_code ∧
    parse_u64 t9 = some r.received_bytes ∧
    parse_u64 t10 = some r.sent_bytes ∧
    r.request_method = trim_matches '\"' t11 ∧
    r.request_url = t12 ∧
    r.request_http_version = trim_matches '\"' t13 := by
  by_cases hexp : expected_errors t0 t2 t3 t4 t5 t6 t7 t8 t9 t10 = []
  · obtain ⟨u11, u12, u13, rest2, ts, ca, ba, v4, v5, v6, n7, n8, n9, n10, hrest,
      hp0, hp1, hp2, hp3, hp4, hp5, hp6, hp7, hp8, hp9, hok⟩ :=
      parse_line_success_inv line t0 t1 t2 t3 t4 t5 t6 t7 t8 t9 t10
        (t11 :: t12 :: t13 :: rest) hsplit hexp (Except.ok r) hr
    obtain ⟨e11, e12, e13, _⟩ : t11 = u11 ∧ t12 = u12 ∧ t13 = u13 ∧ rest = rest2 := by
      simpa using hrest
    subst e11; subst e12; subst e13
    have hrec := Except.ok.inj hok
    subst hrec
    exact ⟨hp0, rfl, hp1, hp2, hp3, hp4, hp5, hp6, hp7, hp8, hp9, rfl, rfl, rfl⟩
  · rw [parse_line_failure_char line t0 t1 t2 t3 t4 t5 t6 t7 t8 t9 t10
      (t11 :: t12 :: t13 :: rest) hsplit hexp] at hr
    exact absurd (Option.some_inj.mp hr) (by simp)

lemma takeWhile_eq_replicate (p : Char) (l : List Char) :
    l.takeWhile (· = p) = List.replicate (l.takeWhile (· = p)).length p := by
  refine List.eq_replicate_length.mpr ?_
  intro b hb
  have hpb := List.mem_takeWhile_imp hb
  simpa using hpb

/-- `trim_matches` removes exactly runs of `p` at both ends: the original
string is some number of copies of `p`, then the trimmed text unaltered, then
some number of copies of `p`. -/
lemma trim_matches_shape (p : Char) (s : String) :
    ∃ nl nt, s.data = List.replicate nl p ++ (trim_matches p s).data ++ List.replicate nt p := by
  have h1 : s.data = s.data.takeWhile (· = p) ++ s.data.dropWhile (· = p) := by simp
  have h2 : (s.data.dropWhile (· = p)).reverse =
      (s.data.dropWhile (· = p)).reverse.takeWhile (· = p) ++
      (s.data.dropWhile (· = p)).reverse.dropWhile (· = p) := by simp
  have h3 : s.data.dropWhile (· = p) =
      ((s.data.dropWhile (· = p)).reverse.dropWhile (· = p)).reverse ++
      ((s.data.dropWhile (· = p)).reverse.takeWhile (· = p)).reverse := by
    have h4 := congrArg List.reverse h2
    simpa only [List.reverse_reverse, List.reverse_append] using h4
  refine ⟨(s.data.takeWhile (· = p)).length,
    ((s.data.dropWhile (· = p)).reverse.takeWhile (· = p)).length, ?_⟩
  conv_lhs => rw [h1, h3]
  rw [takeWhile_eq_replicate p s.data,
    takeWhile_eq_replicate p (s.data.dropWhile (· = p)).reverse]
  simp [trim_matches, List.append_assoc]

/-! ### Round trip of the timestamp -/

lemma digit_char_digit_val {c : Char} (h : is_digit c = true) :
    digit_char (digit_val c) = c := by
  have h48 : 48 ≤ c.toNat ∧ c.toNat ≤ 57 := by simpa [is_digit] using h
  have hval : digit_val c + 48 = c.toNat := by
    unfold digit_val
    omega
  unfold digit_char
  rw [hval]
  exact Char.ofNat_toNat c

lemma read_fixed_inv : ∀ (n acc : Nat) (cs : List Char) (v : Nat) (r : List Char),
    read_fixed n acc cs = some (v, r) →
    ∃ w, w < 10 ^ n ∧ v = acc * 10 ^ n + w ∧ cs = write_fixed n w ++ r := by
  intro n
  induction n with
  | zero =>
    intro acc cs v r h
    simp only [read_fixed, Option.some_inj, Prod.mk.injEq] at h
    exact ⟨0, by simp, by simp [h.1.symm], by simp [write_fixed, h.2]⟩
  | succ n ih =>
    intro acc cs v r h
    cases cs with
    | nil => simp [read_fixed] at h
    | cons c cs =>
      simp only [read_fixed] at h
      by_cases hc : is_digit c
      · rw [if_pos hc] at h
        obtain ⟨w, hw, hval, hcs⟩ := ih (acc * 10 + digit_val c) cs v r h
        have hd9 : digit_val c ≤ 9 := by
          simp [is_digit] at hc
          unfold digit_val
          omega
        have hpow : (0:Nat) < 10 ^ n := pow_pos (by omega) n
        have hshape : digit_val c * 10 ^ n + w = w + 10 ^ n * digit_val c := by ring
        refine ⟨digit_val c * 10 ^ n + w, ?_, ?_, ?_⟩
        · rw [pow_succ]
          nlinarith
        · rw [hval, pow_succ]
          ring
        · have hdiv : (digit_val c * 10 ^ n + w) / 10 ^ n = digit_val c := by
            rw [hshape, Nat.add_mul_div_left w (digit_val c) hpow, Nat.div_eq_of_lt hw,
              Nat.zero_add]
          have hmod : (digit_val c * 10 ^ n + w) % 10 ^ n = w := by
            rw [hshape, Nat.add_mul_mod_self_left]
            exact Nat.mod_eq_of_lt hw
          rw [hcs]
          show c :: (write_fixed n w ++ r) = write_fixed (n + 1) (digit_val c * 10 ^ n + w) ++ r
          simp only [write_fixed, hdiv, hmod, digit_char_digit_val hc, List.cons_append]
      · rw [if_neg hc] at h
        cases h

lemma expect_inv {ch : Char} {cs r : List Char} (h : expect ch cs = some r) :
    cs = ch :: r := by
  cases cs with
  | nil => simp [expect] at h
  | cons c cs =>
    simp only [expect] at h
    by_cases hc : c = ch
    · rw [if_pos hc] at h
      rw [hc, Option.some_inj.mp h]
    · rw [if_neg hc] at h
      cases h

/-- A successfully parsed timestamp token is exactly the canonical rendering of
the parsed instant. -/
lemma parse_timestamp_inv (s : String) (dt : DateTimeUTC)
    (h : parse_timestamp s = some dt) :
    s.data = write_fixed 4 dt.year ++ '-' :: write_fixed 2 dt.month ++
      '-' :: write_fixed 2 dt.day ++ 'T' :: write_fixed 2 dt.hour ++
      ':' :: write_fixed 2 dt.minute ++ ':' :: write_fixed 2 dt.second ++
      '.' :: write_fixed 6 dt.micro ++ ['Z'] := by
  unfold parse_timestamp at h
  split at h
  · exact Option.noConfusion h
  rename_i y ra heq0
  split at h
  · exact Option.noConfusion h
  rename_i r1 heq1
  split at h
  · exact Option.noConfusion h
  rename_i mo rb heq2
  split at h
  · exact Option.noConfusion h
  rename_i r2 heq3
  split at h
  · exact Option.noConfusion h
  rename_i dy rc heq4
  split at h
  · exact Option.noConfusion h
  rename_i r3 heq5
  split at h
  · exact Option.noConfusion h
  rename_i hh rd heq6
  split at h
  · exact Option.noConfusion h
  rename_i r4 heq7
  split at h
  · exact Option.noConfusion h
  rename_i mi re heq8
  split at h
  · exact Option.noConfusion h
  rename_i r5 heq9
  split at h
  · exact Option.noConfusion h
  rename_i sec rf heq10
  split at h
  · exact Option.noConfusion h
  rename_i r6 heq11
  split at h
  · exact Option.noConfusion h
  rename_i mic rg heq12
  split at h
  · exact Option.noConfusion h
  rename_i r7 heq13
  split at h
  · rename_i hcond
    obtain ⟨w0, _, hv0, hd0⟩ := read_fixed_inv 4 0 s.data y ra heq0
    obtain ⟨w1, _, hv1, hd1⟩ := read_fixed_inv 2 0 r1 mo rb heq2
    obtain ⟨w2, _, hv2, hd2⟩ := read_fixed_inv 2 0 r2 dy rc heq4
    obtain ⟨w3, _, hv3, hd3⟩ := read_fixed_inv 2 0 r3 hh rd heq6
    obtain ⟨w4, _, hv4, hd4⟩ := read_fixed_inv 2 0 r4 mi re heq8
    obtain ⟨w5, _, hv5, hd5⟩ := read_fixed_inv 2 0 r5 sec rf heq10
    obtain ⟨w6, _, hv6, hd6⟩ := read_fixed_inv 6 0 r6 mic rg heq12
    simp only [Nat.zero_mul, Nat.zero_add] at hv0 hv1 hv2 hv3 hv4 hv5 hv6
    subst hv0; subst hv1; subst hv2; subst hv3; subst hv4; subst hv5; subst hv6
    have hra := expect_inv heq1
    have hrb := expect_inv heq3
    have hrc := expect_inv heq5
    have hrd := expect_inv heq7
    have hre := expect_inv heq9
    have hrf := expect_inv heq11
    have hrg := expect_inv heq13
    have hdt : dt = ⟨y, mo, dy, hh, mi, sec, mic⟩ := (Option.some_inj.mp h).symm
    subst hdt
    rw [hd0, hra, hd1, hrb, hd2, hrc, hd3, hrd, hd4, hre, hd5, hrf, hd6, hrg, hcond.1]
    simp [List.append_assoc]
  · exact Option.noConfusion h

/-! ### Driver lemmas -/

lemma parse_lines_isSome :
    ∀ (l : List String), (∀ a ∈ l, (parse_line a).isSome) →
      ∃ ys, parse_lines l = some ys ∧ ys.length = l.length := by
  intro l
  induction l with
  | nil => intro _; exact ⟨[], rfl, rfl⟩
  | cons a l ih =>
    intro h
    obtain ⟨b, hb⟩ := Option.isSome_iff_exists.mp (h a (by simp))
    obtain ⟨ys, hys, hlen⟩ := ih fun x hx => h x (by simp [hx])
    refine ⟨b :: ys, ?_, by simp [hlen]⟩
    simp [parse_lines, hb, hys]

lemma process_files_go_total (files : List (Option (List String)))
    (h : ∀ f ∈ files, ∀ l ∈ f.getD [], (parse_line l).isSome) :
    ∀ acc, process_files_go acc files =
      some (acc + (files.map fun f => (f.getD []).length).sum) := by
  induction files with
  | nil => intro acc; simp [process_files_go]
  | cons f rest ih =>
    intro acc
    have hrest : ∀ g ∈ rest, ∀ l ∈ g.getD [], (parse_line l).isSome :=
      fun g hg => h g (List.mem_cons_of_mem _ hg)
    cases f with
    | none =>
      rw [show process_files_go acc (none :: rest) = process_files_go acc rest from rfl,
        ih hrest acc]
      simp
    | some lines =>
      obtain ⟨recs, hrecs, hlen⟩ :=
        parse_lines_isSome lines (by simpa using h (some lines) (by simp))
      have hgo : process_files_go acc (some lines :: rest) =
          process_files_go (acc + recs.length) rest := by
        show (match parse_lines lines with
          | none => none
          | some recs => process_files_go (acc + recs.length) rest) = _
        rw [hrecs]
      rw [hgo, ih hrest (acc + recs.length)]
      congr 1
      simp only [List.map_cons, List.sum_cons, Option.getD_some, hlen]
      omega

/-! ### Claim theorems -/

/-- C1: the claim states that `parse_line` is total — for every input it
returns a record or a failure, and on a short line (fewer than 14 tokens) it
reports the missing typed fields as parse errors instead of crashing.  The
code instead indexes the token vector out of bounds and aborts (`none` in this
model): on the empty line it panics at `split_line[2]`, and even a 13-token
line whose present fields are all valid panics at `split_line[13]`. -/
theorem C1_short_lines_abort :
    parse_line "" = none ∧ parse_line thirteen_token_line = none := by
  constructor <;> decide

/-- C2: on any line of at least 11 tokens with at least one malformed typed
field (positions 0 and 2–10), `parse_line` returns a failure whose error list
is exactly the per-field expected list: its length is the number of malformed
typed fields, its tags are drawn from the fixed tag list and appear in
positional order (a sublist of `typed_field_tags`); fields that parsed
successfully contribute nothing. -/
theorem C2_error_completeness (line t0 t1 t2 t3 t4 t5 t6 t7 t8 t9 t10 : String)
    (rest : List String)
    (hsplit : split_space line =
      t0 :: t1 :: t2 :: t3 :: t4 :: t5 :: t6 :: t7 :: t8 :: t9 :: t10 :: rest)
    (hk : expected_errors t0 t2 t3 t4 t5 t6 t7 t8 t9 t10 ≠ []) :
    ∃ e, parse_line line = some (Except.error e) ∧
      e.record = line ∧
      e.errors = expected_errors t0 t2 t3 t4 t5 t6 t7 t8 t9 t10 ∧
      e.errors.length = num_malformed t0 t2 t3 t4 t5 t6 t7 t8 t9 t10 ∧
      List.Sublist (e.errors.map ParsingError.property) typed_field_tags := by
  refine ⟨⟨line, expected_errors t0 t2 t3 t4 t5 t6 t7 t8 t9 t10⟩,
    parse_line_failure_char line t0 t1 t2 t3 t4 t5 t6 t7 t8 t9 t10 rest hsplit hk,
    rfl, rfl, ?_, ?_⟩
  · simp only [expected_errors, num_malformed, List.length_append, err_bit_length]
  · unfold expected_errors typed_field_tags
    simp only [List.map_append, List.append_assoc]
    apply bit_cons_sublist
    apply bit_cons_sublist
    apply bit_cons_sublist
    apply bit_cons_sublist
    apply bit_cons_sublist
    apply bit_cons_sublist
    apply bit_cons_sublist
    apply bit_cons_sublist
    apply bit_cons_sublist
    exact bit_last_sublist _ _

/-- Witness for C2: the spec's negative scenario — replacing `200 200` by
`two-hundred 200` in the canonical line yields exactly one error, tagged
`ELB status code`. -/
theorem C2_error_completeness_witness :
    ∃ e, parse_line two_hundred_line = some (Except.error e) ∧
      e.record = two_hundred_line ∧
      e.errors = [⟨ELB_STATUS_CODE⟩] ∧
      e.errors.length = 1 ∧
      List.Sublist (e.errors.map ParsingError.property) typed_field_tags := by
  obtain ⟨e, h1, h2, h3, h4, h5⟩ := C2_error_completeness two_hundred_line
    "2015-08-15T23:43:05.302180Z" "elb-name" "172.16.1.6:54814" "172.16.1.5:9000"
    "0.000039" "0.145507" "0.00003" "two-hundred" "200" "0" "7582"
    ["\"GET", "http://some.domain.com:80/path0/path1?param0=p0&param1=p1", "HTTP/1.1\""]
    (by decide) (by decide)
  refine ⟨e, h1, h2, ?_, ?_, h5⟩
  · rw [h3]; decide
  · rw [h4]; decide

/-- C3: whenever `parse_line` returns (rather than aborts), the result is a
record iff the error list collected over the ten independently attempted typed
fields is empty; otherwise it is a failure aggregating exactly the collected
errors together with the verbatim input line, and such a failure always
carries at least one error.  (A partially populated record is impossible: the
record carries every field by construction.) -/
theorem C3_record_iff_no_errors (line t0 t1 t2 t3 t4 t5 t6 t7 t8 t9 t10 : String)
    (rest : List String)
    (hsplit : split_space line =
      t0 :: t1 :: t2 :: t3 :: t4 :: t5 :: t6 :: t7 :: t8 :: t9 :: t10 :: rest)
    (r : Except ParsingErrors ELBLogEntry)
    (hr : parse_line line = some r) :
    ((∃ rec, r = Except.ok rec) ↔ expected_errors t0 t2 t3 t4 t5 t6 t7 t8 t9 t10 = []) ∧
    (∀ e, r = Except.error e →
      e.record = line ∧ e.errors = expected_errors t0 t2 t3 t4 t5 t6 t7 t8 t9 t10 ∧
      e.errors ≠ []) := by
  by_cases hexp : expected_errors t0 t2 t3 t4 t5 t6 t7 t8 t9 t10 = []
  · obtain ⟨t11, t12, t13, rest2, ts, ca, ba, v4, v5, v6, n7, n8, n9, n10, hrest,
      _, _, _, _, _, _, _, _, _, _, hok⟩ :=
      parse_line_success_inv line t0 t1 t2 t3 t4 t5 t6 t7 t8 t9 t10 rest hsplit hexp r hr
    constructor
    · exact ⟨fun _ => hexp, fun _ => ⟨_, hok⟩⟩
    · intro e he
      rw [hok] at he
      exact Except.noConfusion he
  · have hfail := parse_line_failure_char line t0 t1 t2 t3 t4 t5 t6 t7 t8 t9 t10 rest hsplit hexp
    rw [hfail] at hr
    have hrv := Option.some_inj.mp hr
    constructor
    · constructor
      · rintro ⟨rec, hrec⟩
        rw [← hrv] at hrec
        exact Except.noConfusion hrec
      · intro hcontra
        exact absurd hcontra hexp
    · intro e he
      rw [← hrv] at he
      have hre := Except.error.inj he
      rw [← hre]
      exact ⟨rfl, rfl, hexp⟩

/-- Witness for C3 at a 14-token line whose typed fields are all malformed:
the returned failure is not a record. -/
theorem C3_record_iff_no_errors_witness :
    ¬∃ rec, (Except.error ⟨all_x_line, all_x_errors⟩ : Except ParsingErrors ELBLogEntry) =
      Except.ok rec := by
  have h := (C3_record_iff_no_errors all_x_line "x" "x" "x" "x" "x" "x" "x" "x" "x" "x" "x"
    ["x", "x", "x"] (by decide) (Except.error ⟨all_x_line, all_x_errors⟩) (by decide)).1
  intro hex
  exact absurd (h.mp hex) (by decide)

/-- C4 counterexample: the claim says at most one leading and at most one
trailing `\"` are removed from the method token.  On the canonical line with
the method token `\"\"GET` (two leading quotes) the code produces the method
`GET`, which differs from both values reachable by removing at most one
leading quote (`\"\"GET`, `\"GET`): `trim_matches` removes every leading and
trailing quote. -/
theorem C4_quote_stripping_counterexample :
    parse_line double_quoted_line = some (Except.ok canonical_record) ∧
    canonical_record.request_method = "GET" ∧
    ("GET" : String) ≠ "\"\"GET" ∧ ("GET" : String) ≠ "\"GET" := by
  refine ⟨by decide, rfl, by decide, by decide⟩

/-- C4 amended: on success the method and version are tokens 11 and 13 with
all leading and all trailing double quotes removed (Rust `trim_matches`); no
inner characters are altered — each token is a run of quotes, the stored
field verbatim, and another run of quotes — and the URL is token 12 taken
verbatim. -/
theorem C4_quote_trimming
    (line t0 t1 t2 t3 t4 t5 t6 t7 t8 t9 t10 t11 t12 t13 : String)
    (rest : List String)
    (hsplit : split_space line = t0 :: t1 :: t2 :: t3 :: t4 :: t5 :: t6 :: t7 ::
      t8 :: t9 :: t10 :: t11 :: t12 :: t13 :: rest)
    (r : ELBLogEntry) (hr : parse_line line = some (Except.ok r)) :
    r.request_method = trim_matches '\"' t11 ∧
    r.request_url = t12 ∧
    r.request_http_version = trim_matches '\"' t13 ∧
    (∃ nl nt, t11.data =
      List.replicate nl '\"' ++ r.request_method.data ++ List.replicate nt '\"') ∧
    (∃ nl nt, t13.data =
      List.replicate nl '\"' ++ r.request_http_version.data ++ List.replicate nt '\"') := by
  obtain ⟨_, _, _, _, _, _, _, _, _, _, _, hm, hu, hv⟩ :=
    parse_line_ok_inv line t0 t1 t2 t3 t4 t5 t6 t7 t8 t9 t10 t11 t12 t13 rest hsplit r hr
  refine ⟨hm, hu, hv, ?_, ?_⟩
  · rw [hm]
    exact trim_matches_shape _ t11
  · rw [hv]
    exact trim_matches_shape _ t13

/-- Witness for C4 (amended) at the canonical line. -/
theorem C4_quote_trimming_witness :
    canonical_record.request_method = trim_matches '\"' "\"GET" ∧
    canonical_record.request_url =
      "http://some.domain.com:80/path0/path1?param0=p0&param1=p1" ∧
    canonical_record.request_http_version = trim_matches '\"' "HTTP/1.1\"" ∧
    (∃ nl nt, ("\"GET" : String).data =
      List.replicate nl '\"' ++ canonical_record.request_method.data ++
        List.replicate nt '\"') ∧
    (∃ nl nt, ("HTTP/1.1\"" : String).data =
      List.replicate nl '\"' ++ canonical_record.request_http_version.data ++
        List.replicate nt '\"') :=
  C4_quote_trimming canonical_line
    "2015-08-15T23:43:05.302180Z" "elb-name" "172.16.1.6:54814" "172.16.1.5:9000"
    "0.000039" "0.145507" "0.00003" "200" "200" "0" "7582"
    "\"GET" "http://some.domain.com:80/path0/path1?param0=p0&param1=p1" "HTTP/1.1\""
    [] (by decide) canonical_record (by decide)

/-- C5: for any token in the canonical timestamp pattern accepted by the
parser, formatting the parsed instant in the same pattern reproduces the
token exactly. -/
theorem C5_timestamp_roundtrip (s : String) (dt : DateTimeUTC)
    (h : parse_timestamp s = some dt) : format_timestamp dt = s := by
  have hdata := parse_timestamp_inv s dt h
  cases s with
  | mk data => exact congrArg String.mk hdata.symm

/-- Witness for C5 at the canonical timestamp token. -/
theorem C5_timestamp_roundtrip_witness :
    parse_timestamp "2015-08-15T23:43:05.302180Z" =
      some ⟨2015, 8, 15, 23, 43, 5, 302180⟩ ∧
    format_timestamp ⟨2015, 8, 15, 23, 43, 5, 302180⟩ = "2015-08-15T23:43:05.302180Z" :=
  ⟨by decide, C5_timestamp_roundtrip _ _ (by decide)⟩

/-- C6 counterexample: the claim says the three processing-time fields of any
returned record are non-negative.  The parser accepts a negative decimal: the
canonical line with `request_processing_time = -0.5` parses to a record whose
`request_processing_time` is negative. -/
theorem C6_nonnegative_counterexample :
    parse_line neg_time_line = some (Except.ok neg_time_record) ∧
    neg_time_record.request_processing_time.toRat < 0 := by
  constructor
  · decide
  · have hfield : neg_time_record.request_processing_time = ⟨-5, 1⟩ := rfl
    rw [hfield]
    norm_num [F32Val.toRat]

/-- C6 amended: on success the three processing-time fields are exactly the
`f32` parses of tokens 4–6; the parser imposes no sign check, so they are
non-negative only when the tokens are (as they are throughout the corpus). -/
theorem C6_time_fields_parsed
    (line t0 t1 t2 t3 t4 t5 t6 t7 t8 t9 t10 t11 t12 t13 : String)
    (rest : List String)
    (hsplit : split_space line = t0 :: t1 :: t2 :: t3 :: t4 :: t5 :: t6 :: t7 ::
      t8 :: t9 :: t10 :: t11 :: t12 :: t13 :: rest)
    (r : ELBLogEntry) (hr : parse_line line = some (Except.ok r)) :
    parse_f32 t4 = some r.request_processing_time ∧
    parse_f32 t5 = some r.backend_processing_time ∧
    parse_f32 t6 = some r.response_processing_time := by
  obtain ⟨_, _, _, _, h4, h5, h6, _, _, _, _, _, _, _⟩ :=
    parse_line_ok_inv line t0 t1 t2 t3 t4 t5 t6 t7 t8 t9 t10 t11 t12 t13 rest hsplit r hr
  exact ⟨h4, h5, h6⟩

/-- Witness for C6 (amended) at the canonical line. -/
theorem C6_time_fields_parsed_witness :
    parse_f32 "0.000039" = some canonical_record.request_processing_time ∧
    parse_f32 "0.145507" = some canonical_record.backend_processing_time ∧
    parse_f32 "0.00003" = some canonical_record.response_processing_time :=
  C6_time_fields_parsed canonical_line
    "2015-08-15T23:43:05.302180Z" "elb-name" "172.16.1.6:54814" "172.16.1.5:9000"
    "0.000039" "0.145507" "0.00003" "200" "200" "0" "7582"
    "\"GET" "http://some.domain.com:80/path0/path1?param0=p0&param1=p1" "HTTP/1.1\""
    [] (by decide) canonical_record (by decide)

/-- C7: when no line aborts the per-line parse (every line yields a record or
a failure), `process_files` runs to completion and its total is the number of
parsed lines of every successfully opened file — parse failures are counted
alongside successes in the single total; files that fail to open contribute
nothing. -/
theorem C7_failures_counted (debug : Bool) (files : List (Option (List String)))
    (h : ∀ f ∈ files, ∀ l ∈ f.getD [], (parse_line l).isSome) :
    process_files debug files = some ((files.map fun f => (f.getD []).length).sum) := by
  unfold process_files
  simpa using process_files_go_total files h 0

/-- Witness for C7: one file holding the canonical line and an all-malformed
line, one unopenable file, one empty file — the total counts the failure
alongside the success. -/
theorem C7_failures_counted_witness :
    process_files false [some [canonical_line, all_x_line], none, some []] = some 2 := by
  rw [C7_failures_counted false [some [canonical_line, all_x_line], none, some []]
    (by decide)]
  decide

/-- C8: `parse_line` is deterministic and pure — two invocations on equal
input strings produce equal outputs.  In this embedding the Rust function
(which performs no I/O and touches no mutable state) is a Lean function, so
equal inputs necessarily give equal results. -/
theorem C8_deterministic (l1 l2 : String) (h : l1 = l2) :
    parse_line l1 = parse_line l2 := by
  rw [h]

/-- Witness for C8 at the canonical line. -/
theorem C8_deterministic_witness :
    canonical_line = canonical_line ∧
    parse_line canonical_line = parse_line canonical_line :=
  ⟨rfl, C8_deterministic canonical_line canonical_line rfl⟩

/-- C9 counterexample: the claim says the integer fields reject any sign
character.  Rust's unsigned `FromStr` — which the source calls — accepts an
optional leading `'+'`: `+7582` parses as 7582, both at the field parser and
through `parse_line` (the canonical line with `sent_bytes = +7582` parses to
the canonical record). -/
theorem C9_sign_rejection_counterexample :
    parse_u64 "+7582" = some 7582 ∧
    parse_line plus_line = some (Except.ok canonical_record) := by
  constructor <;> decide

/-- C9 amended: the unsigned integer fields parse exactly the range of their
target type — `u64::MAX` parses and one past it fails, status code 999 parses
and 65536 fails — and reject `'-'`, separators and non-digits, while
accepting one optional leading `'+'`. -/
theorem C9_integer_ranges :
    parse_u64 "18446744073709551615" = some 18446744073709551615 ∧
    parse_u64 "18446744073709551616" = none ∧
    parse_u16 "999" = some 999 ∧
    parse_u16 "65536" = none ∧
    parse_u16 "65535" = some 65535 ∧
    parse_u64 "-7582" = none ∧
    parse_u64 "7_582" = none ∧
    parse_u64 "7582x" = none ∧
    parse_u64 "" = none ∧
    parse_u64 "+" = none ∧
    parse_u64 "+7582" = some 7582 ∧
    parse_line max_bytes_line =
      some (Except.ok { canonical_record with sent_bytes := 18446744073709551615 }) ∧
    parse_line over_bytes_line =
      some (Except.error ⟨over_bytes_line, [⟨SENT_BYTES⟩]⟩) ∧
    parse_line over_status_line =
      some (Except.error ⟨over_status_line, [⟨ELB_STATUS_CODE⟩]⟩) := by
  decide

/-- C10: `file_list` pushes every successfully walked entry onto the caller's
vector in order and, when the walk yields no error, returns the final length
of that vector (including whatever it already contained); at the first
traversal error it returns that error immediately, with all entries walked
before the error still appended (no rollback). -/
theorem C10_file_list_append_and_error (pre oks : List String) :
    file_list (oks.map Except.ok) pre = (Except.ok (pre.length + oks.length), pre ++ oks) ∧
    ∀ (e : String) (tail : List (Except String String)),
      file_list (oks.map Except.ok ++ Except.error e :: tail) pre =
        (Except.error e, pre ++ oks) := by
  induction oks generalizing pre with
  | nil =>
    refine ⟨by simp [file_list], fun e tail => by simp [file_list]⟩
  | cons x xs ih =>
    constructor
    · have h := (ih (pre ++ [x])).1
      show file_list (Except.ok x :: xs.map Except.ok) pre = _
      rw [show file_list (Except.ok x :: xs.map Except.ok) pre =
        file_list (xs.map Except.ok) (pre ++ [x]) from rfl, h]
      simp [List.append_assoc, List.length_append]
      omega
    · intro e tail
      have h := (ih (pre ++ [x])).2 e tail
      show file_list (Except.ok x :: (xs.map Except.ok ++ Except.error e :: tail)) pre = _
      rw [show file_list (Except.ok x :: (xs.map Except.ok ++ Except.error e :: tail)) pre =
        file_list (xs.map Except.ok ++ Except.error e :: tail) (pre ++ [x]) from rfl, h]
      simp [List.append_assoc]

end Elp
